import Mathlib

/-!
Verification of the Tide-Watcher core against its specification.

Shallow embedding of:
  * `backend/app/engine/calendar.py`  (trading calendar, settlement days)
  * `backend/app/engine/timing.py`    (three-level timing funnel)
  * `backend/app/engine/guard.py`     (market guard)
  * `backend/app/data/rate_limiter.py` (sliding-window rate limiter)
  * `backend/app/data/cache.py`       (TTL memory cache)
  * `backend/app/data/source_zhitu.py` (retry policy of the resilient client)
  * `backend/app/engine/finance_risk.py` (financial risk rules)

Python floats are modelled as rationals, Python ints as `Int`/`Nat`,
`datetime.date` as a year/month/day structure with structural day
arithmetic, and the third-party `chinese_calendar` oracle
(`is_workday` / `is_holiday`) as an abstract `CnCalendar` parameter, so
that facts proved for all oracles hold in particular for the real one.
Unbounded `while` loops over the calendar take an explicit fuel
argument and return `Option` (`none` models non-termination).
-/

namespace TideWatcher

/-! ### Dates (`datetime.date`) -/

structure Date where
  year : Nat
  month : Nat
  day : Nat
deriving DecidableEq, Repr

/-- Leap-year rule of the Gregorian calendar (`calendar.monthrange`). -/
def isLeapYear (y : Nat) : Bool :=
  y % 4 == 0 && (y % 100 != 0 || y % 400 == 0)

/-- Number of days in a month (`calendar.monthrange(year, month)[1]`). -/
def daysInMonth (y m : Nat) : Nat :=
  if m = 2 then (if isLeapYear y then 29 else 28)
  else if m = 4 ∨ m = 6 ∨ m = 9 ∨ m = 11 then 30
  else 31

/-- Day count since 0000-03-01 (Gregorian, proleptic); used for weekday
computation and date differences. -/
def daysFromCivil (y m d : Nat) : Nat :=
  let y' := if m ≤ 2 then y - 1 else y
  let era := y' / 400
  let yoe := y' % 400
  let mp := if m ≤ 2 then m + 9 else m - 3
  let doy := (153 * mp + 2) / 5 + d - 1
  let doe := yoe * 365 + yoe / 4 - yoe / 100 + doy
  era * 146097 + doe

def Date.toScalar (dt : Date) : Nat :=
  daysFromCivil dt.year dt.month dt.day

/-- `datetime.date.weekday()`: 0 = Monday … 6 = Sunday. -/
def Date.weekday (dt : Date) : Nat :=
  (dt.toScalar + 2) % 7

/-- The next calendar day (`d + timedelta(days=1)`). -/
def Date.succDay (dt : Date) : Date :=
  if dt.day < daysInMonth dt.year dt.month then ⟨dt.year, dt.month, dt.day + 1⟩
  else if dt.month < 12 then ⟨dt.year, dt.month + 1, 1⟩
  else ⟨dt.year + 1, 1, 1⟩

/-- The previous calendar day (`d - timedelta(days=1)`). -/
def Date.predDay (dt : Date) : Date :=
  if 1 < dt.day then ⟨dt.year, dt.month, dt.day - 1⟩
  else if 1 < dt.month then ⟨dt.year, dt.month - 1, daysInMonth dt.year (dt.month - 1)⟩
  else ⟨dt.year - 1, 12, 31⟩

def Date.addDays : Date → Nat → Date
  | d, 0 => d
  | d, n + 1 => d.succDay.addDays n

def Date.subDays : Date → Nat → Date
  | d, 0 => d
  | d, n + 1 => d.predDay.subDays n

/-- Python date comparison (chronological; lexicographic on y/m/d for
valid dates). -/
def Date.le (a b : Date) : Bool :=
  decide (a.year < b.year) ||
    (decide (a.year = b.year) &&
      (decide (a.month < b.month) ||
        (decide (a.month = b.month) && decide (a.day ≤ b.day))))

/-- `(a - b).days` of two Python dates. -/
def Date.diffDays (a b : Date) : Int :=
  (a.toScalar : Int) - (b.toScalar : Int)

def padNum (width n : Nat) : String :=
  let s := toString n
  if s.length < width then String.mk (List.replicate (width - s.length) '0') ++ s else s

/-- `str(d)` / `d.strftime("%Y-%m-%d")`. -/
def Date.isoStr (dt : Date) : String :=
  padNum 4 dt.year ++ "-" ++ padNum 2 dt.month ++ "-" ++ padNum 2 dt.day

/-! ### The external `chinese_calendar` oracle -/

/-- Abstract model of the third-party `chinese_calendar` library: the
two predicates the source consults. -/
structure CnCalendar where
  isWorkday : Date → Bool
  isCnHoliday : Date → Bool

/-- A simple concrete oracle (every day a workday, no statutory
holidays) used to evaluate witnesses. -/
def allWorkCal : CnCalendar := ⟨fun _ => true, fun _ => false⟩

/-! ### `engine/calendar.py` -/

/-- `is_trading_day(d)`: not a weekend and a workday. -/
def is_trading_day (cal : CnCalendar) (d : Date) : Bool :=
  if 5 ≤ d.weekday then false else cal.isWorkday d

/-- `prev_trading_day(d)`: nearest trading day strictly before `d`,
searching at most `fuel` days. -/
def prev_trading_dayAux (cal : CnCalendar) : Nat → Date → Option Date
  | 0, _ => none
  | fuel + 1, cur => if is_trading_day cal cur then some cur
      else prev_trading_dayAux cal fuel cur.predDay

def prev_trading_day (cal : CnCalendar) (fuel : Nat) (d : Date) : Option Date :=
  prev_trading_dayAux cal fuel d.predDay

/-- `next_trading_day(d)`: nearest trading day strictly after `d`. -/
def next_trading_dayAux (cal : CnCalendar) : Nat → Date → Option Date
  | 0, _ => none
  | fuel + 1, cur => if is_trading_day cal cur then some cur
      else next_trading_dayAux cal fuel cur.succDay

def next_trading_day (cal : CnCalendar) (fuel : Nat) (d : Date) : Option Date :=
  next_trading_dayAux cal fuel d.succDay

/-- `trading_day_or_prev(d)`: `d` itself if trading, else walk back. -/
def trading_day_or_prev (cal : CnCalendar) : Nat → Date → Option Date
  | 0, _ => none
  | fuel + 1, d => if is_trading_day cal d then some d
      else trading_day_or_prev cal fuel d.predDay

/-- `_nth_weekday_of_month(year, month, weekday, nth)`; `none` models
the `ValueError` raised when the Nth occurrence leaves the month. -/
def nth_weekday_of_month (year month weekday nth : Nat) : Option Date :=
  if nth = 0 then none
  else
    let first_weekday := (Date.mk year month 1).weekday
    let diff := (weekday + 7 - first_weekday % 7) % 7
    let resultDay := 1 + diff + 7 * (nth - 1)
    if resultDay ≤ daysInMonth year month then some ⟨year, month, resultDay⟩ else none

/-- `futures_settlement_day(year, month)`: 3rd Friday, rolled back to a
trading day. -/
def futures_settlement_day (cal : CnCalendar) (fuel : Nat) (year month : Nat) : Option Date :=
  match nth_weekday_of_month year month 4 3 with
  | none => none
  | some raw => trading_day_or_prev cal fuel raw

/-- `options_settlement_day(year, month)`: 4th Wednesday, rolled back to
a trading day. -/
def options_settlement_day (cal : CnCalendar) (fuel : Nat) (year month : Nat) : Option Date :=
  match nth_weekday_of_month year month 2 4 with
  | none => none
  | some raw => trading_day_or_prev cal fuel raw

/-- `_week_range(d)`: the Monday and Friday of the week containing `d`. -/
def _week_range (d : Date) : Date × Date :=
  let monday := d.subDays d.weekday
  (monday, monday.addDays 4)

def is_futures_settlement_week (cal : CnCalendar) (fuel : Nat) (d : Date) : Option Bool :=
  match futures_settlement_day cal fuel d.year d.month with
  | none => none
  | some sd => some (Date.le (_week_range sd).1 d && Date.le d (_week_range sd).2)

def is_options_settlement_week (cal : CnCalendar) (fuel : Nat) (d : Date) : Option Bool :=
  match options_settlement_day cal fuel d.year d.month with
  | none => none
  | some sd => some (Date.le (_week_range sd).1 d && Date.le d (_week_range sd).2)

structure SettlementWeekInfo where
  is_futures_week : Bool
  is_options_week : Bool
  futures_day : Date
  options_day : Date
  pre_retreat_day : Option Date
deriving DecidableEq, Repr

/-- `settlement_week_info(d)`. -/
def settlement_week_info (cal : CnCalendar) (fuel : Nat) (d : Date) :
    Option SettlementWeekInfo :=
  match futures_settlement_day cal fuel d.year d.month,
        options_settlement_day cal fuel d.year d.month,
        is_futures_settlement_week cal fuel d,
        is_options_settlement_week cal fuel d with
  | some fd, some od, some in_fw, some in_ow =>
    if in_fw then
      match trading_day_or_prev cal fuel ((_week_range fd).1.subDays 3) with
      | none => none
      | some pr => some ⟨in_fw, in_ow, fd, od, some pr⟩
    else if in_ow then
      match trading_day_or_prev cal fuel ((_week_range od).1.subDays 3) with
      | none => none
      | some pr => some ⟨in_fw, in_ow, fd, od, some pr⟩
    else some ⟨in_fw, in_ow, fd, od, none⟩
  | _, _, _, _ => none

/-! ### `engine/timing.py` -/

inductive Light where
  | RED | YELLOW | GREEN | GREY
deriving DecidableEq, Repr

inductive Action where
  | FORCE_EMPTY | CLEAR_EXIT | REST | PRE_RETREAT | PROBE_ENTRY | OBSERVE | NORMAL | INACTIVE
deriving DecidableEq, Repr

/-- The `TimingSignal` dataclass, with its field defaults. -/
structure TimingSignal where
  date : Date
  level : Nat
  light : Light
  action : Action
  reason : String
  details : List String := []
  is_trading_day : Bool := true
  is_holiday : Bool := false
  holiday_name : String := ""
  next_open_date : String := ""
deriving DecidableEq, Repr

/-- Python tuple comparison `(a1, a2) <= (b1, b2)`. -/
def md_le (a b : Nat × Nat) : Bool :=
  decide (a.1 < b.1) || (decide (a.1 = b.1) && decide (a.2 ≤ b.2))

/-- `_check_level1(d)`: absolute exclusion window Mar 15 – Apr 30. -/
def _check_level1 (d : Date) : Option TimingSignal :=
  let md := (d.month, d.day)
  if md_le (3, 15) md && md_le md (4, 30) then
    some { date := d, level := 1, light := .RED, action := .FORCE_EMPTY,
           reason := "财报暴雷季（3/15~4/30），强制空仓",
           details := ["当前处于年报/一季报密集披露期", "严禁任何建仓操作"] }
  else none

/-- `_check_level2(d)`: Mar 5 – Mar 14 exit window, plus all of December. -/
def _check_level2 (d : Date) : Option TimingSignal :=
  let md := (d.month, d.day)
  if md_le (3, 5) md && md_le md (3, 14) then
    let days_to_zone := Date.diffDays ⟨d.year, 3, 15⟩ d
    some { date := d, level := 2, light := .YELLOW, action := .CLEAR_EXIT,
           reason := s!"风险前置跑路期（3/5~3/14），距绝对禁区还有 {days_to_zone} 天",
           details := ["即将进入财报暴雷季", "仅允许离场操作，严禁建仓"] }
  else if d.month = 12 then
    some { date := d, level := 2, light := .RED, action := .REST,
           reason := "12月资金面枯竭期，建议休息",
           details := ["年末资金回笼压力大", "机构调仓换股密集", "仅允许离场预警，严禁建仓"] }
  else none

/-- `_check_level3(d)`: settlement-week tactics. Outer `none` models a
diverging calendar walk; `some none` means "no level-3 signal". -/
def _check_level3 (cal : CnCalendar) (fuel : Nat) (d : Date) :
    Option (Option TimingSignal) :=
  match settlement_week_info cal fuel d with
  | none => none
  | some info =>
    let weekday := d.weekday
    let fd := info.futures_day
    let od := info.options_day
    let afterFriday : Option (Option TimingSignal) :=
      if weekday = 4 then
        let next_monday := d.addDays 3
        match futures_settlement_day cal fuel next_monday.year next_monday.month with
        | none => none
        | some fd_next =>
          if (_week_range fd_next).1 = next_monday then
            let fdn := fd_next.isoStr
            let sig : TimingSignal :=
              { date := d, level := 3, light := .YELLOW, action := .PRE_RETREAT,
                reason := s!"期货交割周前置撤退（交割日 {fdn}）",
                details := ["下周为期货交割周", "14:30 收盘前完成减仓/离场"] }
            some (some sig)
          else
            match options_settlement_day cal fuel next_monday.year next_monday.month with
            | none => none
            | some od_next =>
              if (_week_range od_next).1 = next_monday then
                let odn := od_next.isoStr
                let sig : TimingSignal :=
                  { date := d, level := 3, light := .YELLOW, action := .PRE_RETREAT,
                    reason := s!"期权结算周前置撤退（结算日 {odn}）",
                    details := ["下周为期权结算周", "14:30 收盘前完成减仓/离场"] }
                some (some sig)
              else some none
      else some none
    match afterFriday with
    | none => none
    | some (some sig) => some (some sig)
    | some none =>
      let targets : List String :=
        (if info.is_futures_week then [s!"期货交割日 {fd.isoStr}"] else []) ++
          (if info.is_options_week then [s!"期权结算日 {od.isoStr}"] else [])
      if weekday = 1 ∧ targets ≠ [] then
        let joined := String.intercalate " + " targets
        let sig : TimingSignal :=
          { date := d, level := 3, light := .GREEN, action := .PROBE_ENTRY,
            reason := s!"结算周战术执行日（{joined}）",
            details := ["14:30 观察市场是否出现博弈性回落",
                        "若非单边暴跌，可收盘前试探性建仓", "严格控制仓位，不宜重仓"] }
        some (some sig)
      else if d = fd ∧ info.is_futures_week then
        let sig : TimingSignal :=
          { date := d, level := 3, light := .YELLOW, action := .OBSERVE,
            reason := "期货交割日，15:00 后观察情绪切换",
            details := ["股指期货本月合约交割完成", "关注盘后资金流向和情绪变化"] }
        some (some sig)
      else if d = od ∧ info.is_options_week then
        let sig : TimingSignal :=
          { date := d, level := 3, light := .YELLOW, action := .OBSERVE,
            reason := "期权结算日，15:00 后观察情绪切换",
            details := ["ETF 期权本月合约结算完成", "关注盘后资金流向和情绪变化"] }
        some (some sig)
      else some none

/-- The static `_HOLIDAY_NAMES` table. -/
def _HOLIDAY_NAMES : List ((Nat × Nat) × String) :=
  [((1, 1), "元旦"), ((1, 2), "元旦"),
   ((2, 14), "春节"), ((2, 15), "春节"), ((2, 16), "春节"), ((2, 17), "春节"),
   ((2, 18), "春节"), ((2, 19), "春节"), ((2, 20), "春节"), ((2, 21), "春节"), ((2, 22), "春节"),
   ((5, 1), "劳动节"), ((5, 2), "劳动节"), ((5, 3), "劳动节"),
   ((10, 1), "国庆节"), ((10, 2), "国庆节"), ((10, 3), "国庆节"), ((10, 4), "国庆节"),
   ((10, 5), "国庆节"), ((10, 6), "国庆节"), ((10, 7), "国庆节")]

/-- `_get_holiday_name(d)`: static table, then weekend, then the
`chinese_calendar` holiday fallback. -/
def _get_holiday_name (cal : CnCalendar) (d : Date) : String :=
  match (_HOLIDAY_NAMES.find? fun p => decide (p.1 = (d.month, d.day))).map Prod.snd with
  | some name => name
  | none =>
    if 5 ≤ d.weekday then "周末"
    else if cal.isCnHoliday d then "法定假日"
    else "非交易日"

/-- `_build_inactive_signal(d)`. -/
def _build_inactive_signal (cal : CnCalendar) (fuel : Nat) (d : Date) :
    Option TimingSignal :=
  let holiday_name := _get_holiday_name cal d
  match next_trading_day cal fuel d with
  | none => none
  | some next_open =>
    let next_open_str := next_open.isoStr
    let nm := toString next_open.month
    let nd := toString next_open.day
    let reason :=
      if holiday_name = "周末" then s!"周末休市 | {nm}月{nd}日开盘"
      else s!"{holiday_name}休市 | {nm}月{nd}日开盘"
    some { date := d, level := 0, light := .GREY, action := .INACTIVE,
           reason := reason,
           details := [s!"下一交易日: {next_open_str}"],
           is_trading_day := false,
           is_holiday := decide (holiday_name ≠ "周末" ∧ holiday_name ≠ "非交易日"),
           holiday_name := holiday_name,
           next_open_date := next_open_str }

/-- `evaluate(d)`: the three-level funnel, first match wins. -/
def evaluate (cal : CnCalendar) (fuel : Nat) (d : Date) : Option TimingSignal :=
  match _check_level1 d with
  | some sig => some sig
  | none =>
    match _check_level2 d with
    | some sig => some sig
    | none =>
      match (if is_trading_day cal d then _check_level3 cal fuel d else some none) with
      | none => none
      | some (some sig) => some sig
      | some none =>
        if ¬ is_trading_day cal d then _build_inactive_signal cal fuel d
        else some { date := d, level := 0, light := .GREEN, action := .NORMAL,
                    reason := "正常交易时段" }

/-! ### `engine/guard.py` -/

inductive GuardVerdict where
  | PASS | DOWNGRADE | BLOCK
deriving DecidableEq, Repr

/-- `MarketSnapshot` dataclass; floats as rationals, counts as ints. -/
structure MarketSnapshot where
  index_change_pct : ℚ := 0
  up_count : Int := 0
  down_count : Int := 0
  limit_up_count : Int := 0
  limit_down_count : Int := 0
  broken_board_count : Int := 0
  broken_rate : ℚ := 0
deriving DecidableEq, Repr

def INDEX_CRASH_PCT : ℚ := -3
def LIMIT_DOWN_CRASH : Int := 200
def DOWN_UP_RATIO_CRASH : ℚ := 3
def BROKEN_RATE_WARN : ℚ := 50
def LIMIT_DOWN_WARN : Int := 50

/-- Fixed-point decimal rendering of a rational, standing in for
Python's `:.Nf` float formatting in reason strings (presentational
only; no claim depends on these strings). -/
def ratToFixed (q : ℚ) (prec : Nat) : String :=
  let n : Int := round (q * (10 : ℚ) ^ prec)
  let sign := if n < 0 then "-" else ""
  let a := n.natAbs
  let ip := a / 10 ^ prec
  let fp := a % 10 ^ prec
  if prec = 0 then sign ++ toString ip
  else sign ++ toString ip ++ "." ++ padNum prec fp

/-- `_check_crash(snap)`: crash tier; any hit turns the verdict BLOCK. -/
def _check_crash (snap : MarketSnapshot) : GuardVerdict × List String :=
  let reasons : List String := []
  let verdict := GuardVerdict.PASS
  let (verdict, reasons) :=
    if snap.index_change_pct ≤ INDEX_CRASH_PCT then
      let pc := ratToFixed snap.index_change_pct 2
      (GuardVerdict.BLOCK, reasons ++ [s!"指数暴跌 {pc}%（阈值 -3.0%）"])
    else (verdict, reasons)
  let (verdict, reasons) :=
    if LIMIT_DOWN_CRASH ≤ snap.limit_down_count then
      let ldc := toString snap.limit_down_count
      (GuardVerdict.BLOCK, reasons ++ [s!"跌停 {ldc} 只（阈值 200）"])
    else (verdict, reasons)
  let (verdict, reasons) :=
    if 0 < snap.up_count then
      let rat : ℚ := (snap.down_count : ℚ) / (snap.up_count : ℚ)
      if DOWN_UP_RATIO_CRASH ≤ rat then
        let r1 := ratToFixed rat 1
        (GuardVerdict.BLOCK, reasons ++ [s!"涨跌比 1:{r1}（阈值 1:3.0）"])
      else (verdict, reasons)
    else (verdict, reasons)
  (verdict, reasons)

/-- `_check_warning(snap)`: warning tier; any hit turns the verdict
DOWNGRADE. -/
def _check_warning (snap : MarketSnapshot) : GuardVerdict × List String :=
  let reasons : List String := []
  let verdict := GuardVerdict.PASS
  let (verdict, reasons) :=
    if BROKEN_RATE_WARN ≤ snap.broken_rate then
      let br := ratToFixed snap.broken_rate 1
      (GuardVerdict.DOWNGRADE, reasons ++ [s!"炸板率 {br}%（阈值 50.0%）"])
    else (verdict, reasons)
  let (verdict, reasons) :=
    if LIMIT_DOWN_WARN ≤ snap.limit_down_count ∧ snap.limit_down_count < LIMIT_DOWN_CRASH then
      let ldc := toString snap.limit_down_count
      (GuardVerdict.DOWNGRADE, reasons ++ [s!"跌停 {ldc} 只（警告阈值 50）"])
    else (verdict, reasons)
  (verdict, reasons)

/-- `confirm(signal, snap)`: second-stage confirmation of a
PROBE_ENTRY signal.  The Python PASS branch mutates
`signal.details` in place (`insert(0, …)`) and returns the same
object; here that is the returned copy with the note consed on. -/
def confirm (signal : TimingSignal) (snap : MarketSnapshot) : TimingSignal :=
  if signal.action ≠ Action.PROBE_ENTRY then signal
  else
    let origReason := signal.reason
    let crash := _check_crash snap
    if crash.1 = GuardVerdict.BLOCK then
      { date := signal.date, level := signal.level, light := .RED, action := .OBSERVE,
        reason := "盘面守卫拦截：单边暴跌，禁止建仓",
        details := [s!"原始信号: {origReason}"] ++ crash.2 ++ ["建议观望，等待企稳信号"] }
    else
      let warn := _check_warning snap
      if warn.1 = GuardVerdict.DOWNGRADE then
        { date := signal.date, level := signal.level, light := .YELLOW, action := .PROBE_ENTRY,
          reason := "盘面守卫降级：情绪偏弱，仅允许极轻仓试探",
          details := [s!"原始信号: {origReason}"] ++ warn.2 ++ ["仓位建议不超过 1 成"] }
      else
        { signal with details := "✅ 盘面守卫确认：盘面状态正常" :: signal.details }

/-! ### Shape lemmas for the funnel's branches -/

theorem _check_level1_shape {d : Date} {s : TimingSignal} (h : _check_level1 d = some s) :
    s.level = 1 ∧ s.light = Light.RED ∧ s.action = Action.FORCE_EMPTY ∧
      s.is_trading_day = true ∧ s.is_holiday = false ∧ s.holiday_name = "" ∧
      s.next_open_date = "" := by
  unfold _check_level1 at h
  dsimp only at h
  split at h
  · injection h with h; subst h
    exact ⟨rfl, rfl, rfl, rfl, rfl, rfl, rfl⟩
  · cases h

theorem _check_level2_shape {d : Date} {s : TimingSignal} (h : _check_level2 d = some s) :
    s.level = 2 ∧ (s.light = Light.YELLOW ∨ s.light = Light.RED) ∧
      s.is_trading_day = true ∧ s.is_holiday = false ∧ s.holiday_name = "" ∧
      s.next_open_date = "" := by
  unfold _check_level2 at h
  dsimp only at h
  split at h
  · injection h with h; subst h
    exact ⟨rfl, Or.inl rfl, rfl, rfl, rfl, rfl⟩
  · split at h
    · injection h with h; subst h
      exact ⟨rfl, Or.inr rfl, rfl, rfl, rfl, rfl⟩
    · cases h

theorem _check_level3_shape {cal : CnCalendar} {fuel : Nat} {d : Date} {s : TimingSignal}
    (h : _check_level3 cal fuel d = some (some s)) :
    s.level = 3 ∧ (s.light = Light.YELLOW ∨ s.light = Light.GREEN) ∧
      (s.light = Light.GREEN → s.action = Action.PROBE_ENTRY) ∧
      s.is_trading_day = true ∧ s.is_holiday = false ∧ s.holiday_name = "" ∧
      s.next_open_date = "" := by
  unfold _check_level3 at h
  split at h
  · cases h
  · dsimp only at h
    split at h
    · cases h
    · rename_i sig heq
      injection h with h; injection h with h; subst h
      repeat' split at heq
      all_goals simp only [Option.some.injEq, reduceCtorEq] at heq
      all_goals first
        | exact heq.elim
        | (subst heq; refine ⟨rfl, ?_, ?_, rfl, rfl, rfl, rfl⟩ <;>
            first
              | exact Or.inl rfl
              | exact Or.inr rfl
              | exact fun _ => rfl
              | exact fun hc => nomatch hc)
    · repeat' split at h
      all_goals simp only [Option.some.injEq, reduceCtorEq] at h
      all_goals first
        | exact h.elim
        | (subst h; refine ⟨rfl, ?_, ?_, rfl, rfl, rfl, rfl⟩ <;>
            first
              | exact Or.inl rfl
              | exact Or.inr rfl
              | exact fun _ => rfl
              | exact fun hc => nomatch hc)

theorem _build_inactive_signal_shape {cal : CnCalendar} {fuel : Nat} {d : Date}
    {s : TimingSignal} (h : _build_inactive_signal cal fuel d = some s) :
    s.level = 0 ∧ s.light = Light.GREY ∧ s.action = Action.INACTIVE ∧
      s.is_trading_day = false := by
  unfold _build_inactive_signal at h
  split at h
  · cases h
  · injection h with h; subst h
    exact ⟨rfl, rfl, rfl, rfl⟩

/-- Any signal produced by `evaluate` came from one of the five
construction sites. -/
theorem evaluate_cases {cal : CnCalendar} {fuel : Nat} {d : Date} {s : TimingSignal}
    (h : evaluate cal fuel d = some s) :
    _check_level1 d = some s ∨ _check_level2 d = some s ∨
      _check_level3 cal fuel d = some (some s) ∨
      _build_inactive_signal cal fuel d = some s ∨
      s = { date := d, level := 0, light := .GREEN, action := .NORMAL,
            reason := "正常交易时段" } := by
  unfold evaluate at h
  split at h
  · injection h with h; subst h; exact Or.inl (by assumption)
  · split at h
    · injection h with h; subst h; exact Or.inr (Or.inl (by assumption))
    · rename_i heq3
      split at h
      · cases h
      · rename_i heq
        split at heq
        · injection h with h; subst h; exact Or.inr (Or.inr (Or.inl heq))
        · cases heq
      · split at h
        · exact Or.inr (Or.inr (Or.inr (Or.inl h)))
        · injection h with h
          exact Or.inr (Or.inr (Or.inr (Or.inr h.symm)))

theorem evaluate_of_level1 {cal : CnCalendar} {fuel : Nat} {d : Date} {sig : TimingSignal}
    (h : _check_level1 d = some sig) : evaluate cal fuel d = some sig := by
  unfold evaluate; rw [h]

theorem evaluate_of_level2 {cal : CnCalendar} {fuel : Nat} {d : Date} {sig : TimingSignal}
    (h1 : _check_level1 d = none) (h2 : _check_level2 d = some sig) :
    evaluate cal fuel d = some sig := by
  unfold evaluate; rw [h1, h2]

/-- The signal `evaluate` returns on the plain trading day 2026-01-12
under the all-workday oracle; used to instantiate witnesses. -/
def sigNormal20260112 : TimingSignal :=
  { date := ⟨2026, 1, 12⟩, level := 0, light := .GREEN, action := .NORMAL,
    reason := "正常交易时段" }

/-- C1: for every date whose (month, day) lies in [Mar 15, Apr 30],
`evaluate` yields level 1, RED, FORCE_EMPTY — for every calendar oracle,
hence regardless of weekday or trading-day status — and every signal
`evaluate` returns has level 0, 1, 2 or 3. -/
theorem claim_C1 :
    (∀ (cal : CnCalendar) (fuel : Nat) (d : Date),
        (md_le (3, 15) (d.month, d.day) && md_le (d.month, d.day) (4, 30)) = true →
        ((evaluate cal fuel d).map fun s => (s.level, s.light, s.action)) =
          some (1, Light.RED, Action.FORCE_EMPTY)) ∧
    (∀ (cal : CnCalendar) (fuel : Nat) (d : Date) (s : TimingSignal),
        evaluate cal fuel d = some s →
        s.level = 0 ∨ s.level = 1 ∨ s.level = 2 ∨ s.level = 3) := by
  constructor
  · intro cal fuel d hw
    obtain ⟨t, h1⟩ : ∃ t, _check_level1 d = some t := by
      unfold _check_level1; dsimp only; rw [if_pos hw]; exact ⟨_, rfl⟩
    rw [evaluate_of_level1 h1]
    obtain ⟨hl, hlt, hac, -, -, -, -⟩ := _check_level1_shape h1
    simp only [Option.map_some', hl, hlt, hac]
  · intro cal fuel d s h
    rcases evaluate_cases h with h1 | h2 | h3 | h4 | h5
    · exact Or.inr (Or.inl (_check_level1_shape h1).1)
    · exact Or.inr (Or.inr (Or.inl (_check_level2_shape h2).1))
    · exact Or.inr (Or.inr (Or.inr (_check_level3_shape h3).1))
    · exact Or.inl (_build_inactive_signal_shape h4).1
    · subst h5; exact Or.inl rfl

/-- Witness for C1: the exclusion-window date 2026-04-21 (a
settlement-week Tuesday) for the first part, and 2026-01-12 for the
level-membership part. -/
theorem claim_C1_witness :
    ((md_le (3, 15) ((4 : Nat), (21 : Nat)) && md_le ((4 : Nat), (21 : Nat)) (4, 30)) = true ∧
      ((evaluate allWorkCal 0 ⟨2026, 4, 21⟩).map fun s => (s.level, s.light, s.action)) =
        some (1, Light.RED, Action.FORCE_EMPTY)) ∧
    (evaluate allWorkCal 60 ⟨2026, 1, 12⟩ = some sigNormal20260112 ∧
      (sigNormal20260112.level = 0 ∨ sigNormal20260112.level = 1 ∨
        sigNormal20260112.level = 2 ∨ sigNormal20260112.level = 3)) := by
  have he : evaluate allWorkCal 60 ⟨2026, 1, 12⟩ = some sigNormal20260112 := by rfl
  exact ⟨⟨by decide, claim_C1.1 allWorkCal 0 ⟨2026, 4, 21⟩ (by decide)⟩,
         he, claim_C1.2 allWorkCal 60 ⟨2026, 1, 12⟩ sigNormal20260112 he⟩

/-- C2 as frozen is false on the code: on the settlement-week Tuesday
2026-05-26 `evaluate` returns a GREEN signal whose level is 3, not 0
(the spec's own Scenario C), so GREEN is not exclusive to level 0. -/
theorem claim_C2_counterexample :
    ((evaluate allWorkCal 60 ⟨2026, 5, 26⟩).map fun s => (s.level, s.light)) =
      some (3, Light.GREEN) := by rfl

/-- C2 (amended): every signal returned by `evaluate` satisfies: level 1
carries RED and FORCE_EMPTY; GREY occurs only at level 0; GREEN occurs
only at level 0 or level 3. -/
theorem claim_C2 :
    ∀ (cal : CnCalendar) (fuel : Nat) (d : Date) (s : TimingSignal),
      evaluate cal fuel d = some s →
      (s.level = 1 → s.light = Light.RED ∧ s.action = Action.FORCE_EMPTY) ∧
      (s.light = Light.GREY → s.level = 0) ∧
      (s.light = Light.GREEN → s.level = 0 ∨ s.level = 3) := by
  intro cal fuel d s h
  rcases evaluate_cases h with h1 | h2 | h3 | h4 | h5
  · obtain ⟨hl, hlt, hac, -, -, -, -⟩ := _check_level1_shape h1
    refine ⟨fun _ => ⟨hlt, hac⟩, fun hg => ?_, fun hg => ?_⟩ <;>
      (rw [hlt] at hg; cases hg)
  · obtain ⟨hl, hlt, -, -, -, -⟩ := _check_level2_shape h2
    refine ⟨fun hx => ?_, fun hg => ?_, fun hg => ?_⟩
    · omega
    · rcases hlt with h' | h' <;> rw [h'] at hg <;> cases hg
    · rcases hlt with h' | h' <;> rw [h'] at hg <;> cases hg
  · obtain ⟨hl, hlt, -, -, -, -, -⟩ := _check_level3_shape h3
    refine ⟨fun hx => ?_, fun hg => ?_, fun _ => Or.inr hl⟩
    · omega
    · rcases hlt with h' | h' <;> rw [h'] at hg <;> cases hg
  · obtain ⟨hl, hlt, hac, -⟩ := _build_inactive_signal_shape h4
    refine ⟨fun hx => ?_, fun _ => hl, fun _ => Or.inl hl⟩
    omega
  · subst h5
    refine ⟨fun hx => ?_, fun hg => ?_, fun _ => Or.inl rfl⟩
    · simp at hx
    · simp at hg

/-- Witness for the amended C2, at the trading day 2026-01-12. -/
theorem claim_C2_witness :
    evaluate allWorkCal 60 ⟨2026, 1, 12⟩ = some sigNormal20260112 ∧
      ((sigNormal20260112.level = 1 →
          sigNormal20260112.light = Light.RED ∧
            sigNormal20260112.action = Action.FORCE_EMPTY) ∧
        (sigNormal20260112.light = Light.GREY → sigNormal20260112.level = 0) ∧
        (sigNormal20260112.light = Light.GREEN →
          sigNormal20260112.level = 0 ∨ sigNormal20260112.level = 3)) := by
  have he : evaluate allWorkCal 60 ⟨2026, 1, 12⟩ = some sigNormal20260112 := by rfl
  exact ⟨he, claim_C2 allWorkCal 60 ⟨2026, 1, 12⟩ sigNormal20260112 he⟩

/-- The level-1 signal of 2026-04-05 (a Sunday inside the exclusion
window) and the GREY weekend signal of 2026-01-10, for C10's witness. -/
def sigL1_20260405 : TimingSignal :=
  { date := ⟨2026, 4, 5⟩, level := 1, light := .RED, action := .FORCE_EMPTY,
    reason := "财报暴雷季（3/15~4/30），强制空仓",
    details := ["当前处于年报/一季报密集披露期", "严禁任何建仓操作"] }

def sigGrey20260110 : TimingSignal :=
  { date := ⟨2026, 1, 10⟩, level := 0, light := .GREY, action := .INACTIVE,
    reason := "周末休市 | 1月12日开盘",
    details := ["下一交易日: 2026-01-12"],
    is_trading_day := false, is_holiday := false,
    holiday_name := "周末", next_open_date := "2026-01-12" }

/-- C10: on every level-1 window date (Mar 15 – Apr 30) and every
level-2 window date (Mar 5 – Mar 14, or December), the returned signal
keeps the dataclass defaults `is_trading_day = True`,
`is_holiday = False`, `holiday_name = ""`, `next_open_date = ""`, even
when the oracle marks the day non-trading; and those fields deviate
from the defaults only on the level-0 GREY / INACTIVE path. -/
theorem claim_C10 :
    (∀ (cal : CnCalendar) (fuel : Nat) (d : Date) (s : TimingSignal),
        ((md_le (3, 15) (d.month, d.day) && md_le (d.month, d.day) (4, 30)) = true ∨
          (md_le (3, 5) (d.month, d.day) && md_le (d.month, d.day) (3, 14)) = true ∨
          d.month = 12) →
        evaluate cal fuel d = some s →
        s.is_trading_day = true ∧ s.is_holiday = false ∧ s.holiday_name = "" ∧
          s.next_open_date = "") ∧
    (∀ (cal : CnCalendar) (fuel : Nat) (d : Date) (s : TimingSignal),
        evaluate cal fuel d = some s →
        (s.is_trading_day = false ∨ s.is_holiday = true ∨ s.holiday_name ≠ "" ∨
          s.next_open_date ≠ "") →
        s.level = 0 ∧ s.light = Light.GREY ∧ s.action = Action.INACTIVE) := by
  constructor
  · intro cal fuel d s hw he
    rcases hw with hw | hw | hw
    · obtain ⟨t, h1⟩ : ∃ t, _check_level1 d = some t := by
        unfold _check_level1; dsimp only; rw [if_pos hw]; exact ⟨_, rfl⟩
      rw [evaluate_of_level1 h1] at he
      injection he with he; subst he
      obtain ⟨-, -, -, ht, hh, hn, ho⟩ := _check_level1_shape h1
      exact ⟨ht, hh, hn, ho⟩
    · have hne : ¬ ((md_le (3, 15) (d.month, d.day) &&
          md_le (d.month, d.day) (4, 30)) = true) := by
        simp only [md_le, Bool.and_eq_true, Bool.or_eq_true, decide_eq_true_eq] at hw ⊢
        omega
      have h1 : _check_level1 d = none := by
        unfold _check_level1; dsimp only; rw [if_neg hne]
      obtain ⟨t, h2⟩ : ∃ t, _check_level2 d = some t := by
        unfold _check_level2; dsimp only; rw [if_pos hw]; exact ⟨_, rfl⟩
      rw [evaluate_of_level2 h1 h2] at he
      injection he with he; subst he
      obtain ⟨-, -, ht, hh, hn, ho⟩ := _check_level2_shape h2
      exact ⟨ht, hh, hn, ho⟩
    · have hne : ¬ ((md_le (3, 15) (d.month, d.day) &&
          md_le (d.month, d.day) (4, 30)) = true) := by
        simp only [md_le, Bool.and_eq_true, Bool.or_eq_true, decide_eq_true_eq]
        omega
      have h1 : _check_level1 d = none := by
        unfold _check_level1; dsimp only; rw [if_neg hne]
      have hne2 : ¬ ((md_le (3, 5) (d.month, d.day) &&
          md_le (d.month, d.day) (3, 14)) = true) := by
        simp only [md_le, Bool.and_eq_true, Bool.or_eq_true, decide_eq_true_eq]
        omega
      obtain ⟨t, h2⟩ : ∃ t, _check_level2 d = some t := by
        unfold _check_level2; dsimp only; rw [if_neg hne2, if_pos hw]; exact ⟨_, rfl⟩
      rw [evaluate_of_level2 h1 h2] at he
      injection he with he; subst he
      obtain ⟨-, -, ht, hh, hn, ho⟩ := _check_level2_shape h2
      exact ⟨ht, hh, hn, ho⟩
  · intro cal fuel d s he hdev
    rcases evaluate_cases he with h1 | h2 | h3 | h4 | h5
    · obtain ⟨-, -, -, ht, hh, hn, ho⟩ := _check_level1_shape h1
      rcases hdev with h | h | h | h <;> simp_all
    · obtain ⟨-, -, ht, hh, hn, ho⟩ := _check_level2_shape h2
      rcases hdev with h | h | h | h <;> simp_all
    · obtain ⟨-, -, -, ht, hh, hn, ho⟩ := _check_level3_shape h3
      rcases hdev with h | h | h | h <;> simp_all
    · obtain ⟨hl, hlt, hac, -⟩ := _build_inactive_signal_shape h4
      exact ⟨hl, hlt, hac⟩
    · subst h5
      rcases hdev with h | h | h | h <;> simp_all

/-- Witness for C10: the in-window Sunday 2026-04-05 keeps the
defaults, and the weekend GREY signal of 2026-01-10 is the only place
the non-trading fields deviate. -/
theorem claim_C10_witness :
    (sigL1_20260405.is_trading_day = true ∧ sigL1_20260405.is_holiday = false ∧
      sigL1_20260405.holiday_name = "" ∧ sigL1_20260405.next_open_date = "") ∧
    (sigGrey20260110.level = 0 ∧ sigGrey20260110.light = Light.GREY ∧
      sigGrey20260110.action = Action.INACTIVE) := by
  have h1 : evaluate allWorkCal 0 ⟨2026, 4, 5⟩ = some sigL1_20260405 := by rfl
  have h2 : evaluate allWorkCal 60 ⟨2026, 1, 10⟩ = some sigGrey20260110 := by rfl
  exact ⟨claim_C10.1 allWorkCal 0 ⟨2026, 4, 5⟩ sigL1_20260405 (Or.inl (by decide)) h1,
         claim_C10.2 allWorkCal 60 ⟨2026, 1, 10⟩ sigGrey20260110 h2 (Or.inl rfl)⟩

/-! ### Guard claims -/

/-- Any crash condition forces `_check_crash` to end in BLOCK. -/
theorem _check_crash_block {snap : MarketSnapshot}
    (h : snap.index_change_pct ≤ INDEX_CRASH_PCT ∨
      LIMIT_DOWN_CRASH ≤ snap.limit_down_count ∨
      (0 < snap.up_count ∧
        DOWN_UP_RATIO_CRASH ≤ (snap.down_count : ℚ) / (snap.up_count : ℚ))) :
    (_check_crash snap).1 = GuardVerdict.BLOCK := by
  unfold _check_crash
  dsimp only
  rcases h with h | h | ⟨h1, h2⟩ <;> split_ifs <;> first | rfl | (exfalso; simp_all)

/-- Under no-crash/no-warning hypotheses `confirm` takes the PASS
branch, returning the signal with the confirmation note prepended. -/
theorem confirm_pass {s : TimingSignal} {snap : MarketSnapshot}
    (ha : s.action = Action.PROBE_ENTRY)
    (hc : (_check_crash snap).1 ≠ GuardVerdict.BLOCK)
    (hw : (_check_warning snap).1 ≠ GuardVerdict.DOWNGRADE) :
    confirm s snap = { s with details := "✅ 盘面守卫确认：盘面状态正常" :: s.details } := by
  unfold confirm
  rw [if_neg (fun hcon => hcon ha)]
  dsimp only
  rw [if_neg hc, if_neg hw]

/-- C3: for every PROBE_ENTRY signal and every snapshot satisfying at
least one crash condition, `confirm` returns the BLOCK signal with
light RED and action OBSERVE, regardless of warning conditions. -/
theorem claim_C3 :
    ∀ (s : TimingSignal) (snap : MarketSnapshot),
      s.action = Action.PROBE_ENTRY →
      (snap.index_change_pct ≤ INDEX_CRASH_PCT ∨
        LIMIT_DOWN_CRASH ≤ snap.limit_down_count ∨
        (0 < snap.up_count ∧
          DOWN_UP_RATIO_CRASH ≤ (snap.down_count : ℚ) / (snap.up_count : ℚ))) →
      (confirm s snap).light = Light.RED ∧ (confirm s snap).action = Action.OBSERVE := by
  intro s snap ha h
  have hb := _check_crash_block h
  unfold confirm
  rw [if_neg (fun hcon => hcon ha)]
  dsimp only
  rw [if_pos hb]
  exact ⟨rfl, rfl⟩

/-- A PROBE_ENTRY signal literal and the Scenario-D snapshot
(index −3.5 %, 150 limit-downs, 300 up / 4200 down, broken rate 80 %). -/
def probeSig : TimingSignal :=
  { date := ⟨2026, 5, 26⟩, level := 3, light := .GREEN, action := .PROBE_ENTRY,
    reason := "结算周战术执行日" }

def snapD : MarketSnapshot :=
  { index_change_pct := ⟨-7, 2, by decide, by decide⟩, up_count := 300, down_count := 4200,
    limit_up_count := 0, limit_down_count := 150, broken_board_count := 0,
    broken_rate := 80 }

/-- Witness for C3 at Scenario D: the snapshot satisfies a crash
condition and also the warning conditions, yet the result is RED /
OBSERVE. -/
theorem claim_C3_witness :
    (probeSig.action = Action.PROBE_ENTRY ∧
      snapD.index_change_pct ≤ INDEX_CRASH_PCT) ∧
    (confirm probeSig snapD).light = Light.RED ∧
      (confirm probeSig snapD).action = Action.OBSERVE := by
  refine ⟨⟨rfl, by decide⟩, claim_C3 probeSig snapD rfl (Or.inl (by decide))⟩

/-- C4: `confirm` is idempotent under PASS: when neither tier fires on a
PROBE_ENTRY signal, the result is the original signal with a note
prepended, its action is still PROBE_ENTRY, and a second application
with the same snapshot takes the PASS branch again — no downgrade or
block on the second pass, light unchanged. -/
theorem claim_C4 :
    ∀ (s : TimingSignal) (snap : MarketSnapshot),
      s.action = Action.PROBE_ENTRY →
      (_check_crash snap).1 ≠ GuardVerdict.BLOCK →
      (_check_warning snap).1 ≠ GuardVerdict.DOWNGRADE →
      confirm s snap = { s with details := "✅ 盘面守卫确认：盘面状态正常" :: s.details } ∧
      (confirm s snap).action = Action.PROBE_ENTRY ∧
      confirm (confirm s snap) snap =
        { confirm s snap with
            details := "✅ 盘面守卫确认：盘面状态正常" :: (confirm s snap).details } ∧
      (confirm (confirm s snap) snap).light = s.light := by
  intro s snap ha hc hw
  have h1 := confirm_pass ha hc hw
  have ha2 : (confirm s snap).action = Action.PROBE_ENTRY := by rw [h1]; exact ha
  have h2 := confirm_pass ha2 hc hw
  refine ⟨h1, ha2, h2, ?_⟩
  rw [h2, h1]

def snapPass : MarketSnapshot :=
  { index_change_pct := 0, up_count := 0, down_count := 0,
    limit_up_count := 0, limit_down_count := 0, broken_board_count := 0,
    broken_rate := 0 }

/-- Witness for C4 on a benign snapshot. -/
theorem claim_C4_witness :
    (probeSig.action = Action.PROBE_ENTRY ∧
      (_check_crash snapPass).1 ≠ GuardVerdict.BLOCK ∧
      (_check_warning snapPass).1 ≠ GuardVerdict.DOWNGRADE) ∧
    (confirm probeSig snapPass =
        { probeSig with details := "✅ 盘面守卫确认：盘面状态正常" :: probeSig.details } ∧
      (confirm probeSig snapPass).action = Action.PROBE_ENTRY ∧
      confirm (confirm probeSig snapPass) snapPass =
        { confirm probeSig snapPass with
            details := "✅ 盘面守卫确认：盘面状态正常" ::
              (confirm probeSig snapPass).details } ∧
      (confirm (confirm probeSig snapPass) snapPass).light = probeSig.light) := by
  refine ⟨⟨rfl, by decide, by decide⟩,
    claim_C4 probeSig snapPass rfl (by decide) (by decide)⟩

/-! ### `engine/finance_risk.py` -/

def LOSS_THRESHOLD : ℚ := 300000000
def REVENUE_THRESHOLD_MAIN : ℚ := 300000000
def REVENUE_THRESHOLD_SMALL : ℚ := 100000000
def SCAN_YEARS : Nat := 3

/-- A financial-indicator row after the ranked field-alias extraction
(`_extract_date`, `_extract_field`): report-date string plus optional
net profit and revenue (`None` / `"--"` / unparseable → `none`). -/
structure FinRow where
  date : String
  net_profit : Option ℚ
  revenue : Option ℚ
deriving DecidableEq, Repr

/-- Python `str.endswith` / lexicographic `str` comparison, modelled
over the character lists (identical semantics, kernel-evaluable). -/
def strEndsWith (s suffix : String) : Bool := suffix.data.isSuffixOf s.data

def charListLt : List Char → List Char → Bool
  | [], [] => false
  | [], _ :: _ => true
  | _ :: _, [] => false
  | a :: as, b :: bs => if a < b then true else if b < a then false else charListLt as bs

def strLt (a b : String) : Bool := charListLt a.data b.data

/-- `_is_annual_report(date_str)`. -/
def _is_annual_report (date_str : String) : Bool :=
  strEndsWith date_str "12-31" || strEndsWith date_str "1231"

/-- `_get_revenue_threshold(code)`: board classification by code
prefix. -/
def _get_revenue_threshold (code : String) : ℚ × String :=
  let pure_code := (code.splitOn ".").headD code
  if pure_code.startsWith "300" || pure_code.startsWith "301" then
    (REVENUE_THRESHOLD_SMALL, "创业板")
  else if pure_code.startsWith "688" then (REVENUE_THRESHOLD_SMALL, "科创板")
  else if pure_code.startsWith "4" || pure_code.startsWith "8" then
    (REVENUE_THRESHOLD_SMALL, "北交所")
  else (REVENUE_THRESHOLD_MAIN, "主板")

/-- Stable descending insertion by date string; `sortByDateDesc`
mirrors Python's stable `sorted(data, key=_extract_date, reverse=True)`. -/
def insertByDateDesc (r : FinRow) : List FinRow → List FinRow
  | [] => [r]
  | x :: xs => if strLt x.date r.date then r :: x :: xs else x :: insertByDateDesc r xs

def sortByDateDesc (l : List FinRow) : List FinRow :=
  l.foldl (fun acc r => insertByDateDesc r acc) []

/-- The Rule-1 loop body: walk the most recent annual reports, counting
the consecutive-loss prefix and accumulating the absolute losses;
stops at the first non-negative or missing net profit (`break`). -/
def lossScan : List FinRow → Nat × ℚ
  | [] => (0, 0)
  | r :: rest =>
    match r.net_profit with
    | some v =>
      if v < 0 then
        let t := lossScan rest
        (t.1 + 1, |v| + t.2)
      else (0, 0)
    | none => (0, 0)

/-- The result dictionary of `analyze_financials`. -/
structure FinResult where
  risks : List String
  risk_type : String
  loss_years : Nat
  cumulative_loss : ℚ
  latest_revenue : Option ℚ
  latest_net_profit : ℚ
  reason : String
deriving DecidableEq, Repr

/-- `analyze_financials(data, code)`. -/
def analyze_financials (data : List FinRow) (code : String) : FinResult :=
  if data = [] then
    { risks := [], risk_type := "", loss_years := 0, cumulative_loss := 0,
      latest_revenue := some 0, latest_net_profit := 0, reason := "" }
  else
    let rows := sortByDateDesc data
    let annual := rows.filter fun r => _is_annual_report r.date
    match annual with
    | [] =>
      { risks := [], risk_type := "", loss_years := 0, cumulative_loss := 0,
        latest_revenue := some 0, latest_net_profit := 0, reason := "" }
    | a0 :: _ =>
      let latest_net_profit : ℚ := a0.net_profit.getD 0
      let ls := lossScan (annual.take SCAN_YEARS)
      let loss_years := ls.1
      let cumulative_loss := ls.2
      let rule1 := 2 ≤ loss_years ∧ LOSS_THRESHOLD < cumulative_loss
      let lyStr := toString loss_years
      let clStr := ratToFixed (cumulative_loss / 100000000) 2
      let risks1 : List String := if rule1 then ["consecutive_loss"] else []
      let reasons1 : List String :=
        if rule1 then [s!"净利润连续 {lyStr} 年为负，累计亏损 {clStr} 亿元（阈值 3 亿）"] else []
      let tb := _get_revenue_threshold code
      let rev_threshold := tb.1
      let board_name := tb.2
      let latest_revenue : Option ℚ := a0.revenue
      let rr : List String × List String :=
        match a0.revenue with
        | none => ([], [])
        | some lr =>
          let is_loss := latest_net_profit < 0
          let lrStr2 := ratToFixed (lr / 100000000) 2
          let lrStr4 := ratToFixed (lr / 100000000) 4
          let thStr := ratToFixed (rev_threshold / 100000000) 0
          let pair1 : List String × List String :=
            if rev_threshold = REVENUE_THRESHOLD_MAIN then
              if 0 < lr ∧ lr < rev_threshold ∧ is_loss then
                (["low_revenue"], [s!"{board_name}营收 {lrStr2} 亿 + 亏损（阈值 {thStr} 亿）"])
              else ([], [])
            else
              if 0 < lr ∧ lr < rev_threshold then
                (["low_revenue"], [s!"{board_name}营收 {lrStr4} 亿元（阈值 {thStr} 亿）"])
              else ([], [])
          let pair2 : List String × List String :=
            if lr = 0 then (["low_revenue"], ["最近年度营收为 0"]) else ([], [])
          (pair1.1 ++ pair2.1, pair1.2 ++ pair2.2)
      let risks := risks1 ++ rr.1
      let reasons := reasons1 ++ rr.2
      let risk_type := if risks.length = 2 then "both" else risks.headD ""
      { risks := risks, risk_type := risk_type, loss_years := loss_years,
        cumulative_loss := cumulative_loss, latest_revenue := latest_revenue,
        latest_net_profit := latest_net_profit,
        reason := String.intercalate "；" reasons }

/-! Spec-side restatement of Rule A ("maximal prefix of the most recent
≤ 3 annual reports with negative net profit"), to compare with the
code's loop. -/

def isNegRow (r : FinRow) : Bool :=
  match r.net_profit with
  | some v => decide (v < 0)
  | none => false

def specLossRows (annual : List FinRow) : List FinRow :=
  (annual.take SCAN_YEARS).takeWhile isNegRow

def specLossYears (annual : List FinRow) : Nat := (specLossRows annual).length

def specCumLoss (annual : List FinRow) : ℚ :=
  ((specLossRows annual).map fun r => |r.net_profit.getD 0|).sum

/-- The sorted annual-report view the code computes from raw rows. -/
def annualOf (data : List FinRow) : List FinRow :=
  (sortByDateDesc data).filter fun r => _is_annual_report r.date

/-- The code's Rule-1 loop computes exactly the maximal-negative-prefix
count and absolute-loss sum. -/
theorem lossScan_eq_spec (l : List FinRow) :
    lossScan l = ((l.takeWhile isNegRow).length,
      ((l.takeWhile isNegRow).map fun r => |r.net_profit.getD 0|).sum) := by
  induction l with
  | nil => rfl
  | cons r rest ih =>
    unfold lossScan
    cases hnp : r.net_profit with
    | none => simp [List.takeWhile_cons, isNegRow, hnp]
    | some v =>
      by_cases hv : v < 0
      · simp [List.takeWhile_cons, isNegRow, hnp, hv, ih]
      · simp [List.takeWhile_cons, isNegRow, hnp, hv]

/-- Rule A fires exactly when the maximal negative prefix of the most
recent ≤ 3 annual reports has length ≥ 2 and its summed absolute loss
exceeds the threshold. -/
theorem analyze_rule1_iff (data : List FinRow) (code : String) :
    "consecutive_loss" ∈ (analyze_financials data code).risks ↔
      2 ≤ specLossYears (annualOf data) ∧
        LOSS_THRESHOLD < specCumLoss (annualOf data) := by
  unfold analyze_financials
  split_ifs with hd
  · subst hd
    simp [annualOf, sortByDateDesc, specLossYears, specLossRows]
  · dsimp only
    split
    · rename_i heq
      have hann : annualOf data = [] := heq
      simp [hann, specLossYears, specLossRows]
    · rename_i a0 rest heq
      have hann : annualOf data = a0 :: rest := heq
      rw [heq, hann, lossScan_eq_spec]
      dsimp only
      by_cases hr : 2 ≤ specLossYears (a0 :: rest) ∧
          LOSS_THRESHOLD < specCumLoss (a0 :: rest)
      · rw [if_pos (by simpa [specLossYears, specLossRows, specCumLoss] using hr)]
        exact iff_of_true (by simp) hr
      · rw [if_neg (by simpa [specLossYears, specLossRows, specCumLoss] using hr)]
        refine iff_of_false ?_ hr
        cases hrev : a0.revenue <;>
          simp only [hrev, List.nil_append] <;>
          (try dsimp only) <;>
          (try split_ifs) <;>
          simp

/-- Scenario-F inputs: three consecutive annual losses summing to
3.1e8, and a single loss year. -/
def scenarioF3 : List FinRow :=
  [⟨"2023-12-31", some (-100000000), none⟩, ⟨"2022-12-31", some (-120000000), none⟩,
   ⟨"2021-12-31", some (-90000000), none⟩]

def scenarioF1 : List FinRow :=
  [⟨"2023-12-31", some (-400000000), none⟩, ⟨"2022-12-31", some 50000000, none⟩,
   ⟨"2021-12-31", some (-90000000), none⟩]

/-- C9: the consecutive-loss rule counts the maximal negative prefix of
the most recent ≤ 3 annual reports and flags exactly when that count is
≥ 2 and the summed absolute loss exceeds 3e8; it flags Scenario F's
three losses (sum 3.1e8) and does not flag with a single loss year. -/
theorem claim_C9 :
    (∀ (data : List FinRow) (code : String),
        "consecutive_loss" ∈ (analyze_financials data code).risks ↔
          2 ≤ specLossYears (annualOf data) ∧
            LOSS_THRESHOLD < specCumLoss (annualOf data)) ∧
    "consecutive_loss" ∈ (analyze_financials scenarioF3 "600000").risks ∧
    ("consecutive_loss" ∈ (analyze_financials scenarioF1 "600000").risks ↔ False) := by
  refine ⟨analyze_rule1_iff, ?_, ?_⟩
  · refine (analyze_rule1_iff scenarioF3 "600000").mpr ⟨by decide, ?_⟩
    have hrows : specLossRows (annualOf scenarioF3) = scenarioF3 := by decide
    rw [specCumLoss, hrows]
    norm_num [scenarioF3, LOSS_THRESHOLD]
  · refine iff_false_intro fun hmem => ?_
    exact absurd ((analyze_rule1_iff scenarioF1 "600000").mp hmem).1 (by decide)

/-! ### `data/cache.py` -/

/-- `MemoryCache._store`: Python dict `key ↦ (value, expires_at)`,
where a stored value may itself be Python `None` (`Option α`);
insertion overwrites the key. -/
def cstoreLookup {α : Type} (store : List (String × Option α × ℚ)) (key : String) :
    Option (Option α × ℚ) :=
  (store.find? fun e => e.1 == key).map fun e => e.2

def cstoreErase {α : Type} (store : List (String × Option α × ℚ)) (key : String) :
    List (String × Option α × ℚ) :=
  store.filter fun e => !(e.1 == key)

def cstoreSet {α : Type} (store : List (String × Option α × ℚ)) (key : String)
    (v : Option α) (expires_at : ℚ) : List (String × Option α × ℚ) :=
  (key, v, expires_at) :: cstoreErase store key

/-- `MemoryCache.get(key)` at monotonic time `now`: the stored value if
unexpired — a stored Python `None` comes back as `None`, exactly like a
miss — with lazy eviction of an expired entry. -/
def cacheGet {α : Type} (store : List (String × Option α × ℚ)) (key : String)
    (now : ℚ) : Option α × List (String × Option α × ℚ) :=
  match cstoreLookup store key with
  | none => (none, store)
  | some (v, expires_at) =>
    if expires_at < now then (none, cstoreErase store key) else (v, store)

/-- `MemoryCache.set(key, value, ttl)` at monotonic time `now`. -/
def cacheSet {α : Type} (store : List (String × Option α × ℚ)) (key : String)
    (v : Option α) (ttl now : ℚ) : List (String × Option α × ℚ) :=
  cstoreSet store key v (now + ttl)

/-- `MemoryCache.get_or_fetch(key, ttl, fetcher)`: `tg` is the clock at
the `get`, `tset` the clock at the `set` after the fetch completes and
`fv` the fetcher's result.  Returns (result, new store, number of
fetcher invocations).  The miss test is Python's
`if cached is not None`. -/
def get_or_fetch {α : Type} (store : List (String × Option α × ℚ)) (key : String)
    (ttl : ℚ) (fv : Option α) (tg tset : ℚ) :
    Option α × List (String × Option α × ℚ) × Nat :=
  match cacheGet store key tg with
  | (some v, store1) => (some v, store1, 0)
  | (none, store1) => (fv, cacheSet store1 key fv ttl tset, 1)

/-- A single `get_or_fetch` call invokes the fetcher at most once. -/
theorem get_or_fetch_count_le_one {α : Type} (store : List (String × Option α × ℚ))
    (key : String) (ttl : ℚ) (fv : Option α) (tg tset : ℚ) :
    (get_or_fetch store key ttl fv tg tset).2.2 ≤ 1 := by
  unfold get_or_fetch
  rcases h : cacheGet store key tg with ⟨v, store1⟩
  cases v <;> simp

/-- C6 as frozen is false: a fetcher that returns Python `None` is
invoked by both calls even within the TTL, because the cached `None` is
indistinguishable from a miss (`if cached is not None`).  Two calls at
times 0 and 5 with ttl 10 on an empty store invoke the fetcher twice. -/
theorem claim_C6_counterexample :
    (get_or_fetch ([] : List (String × Option Nat × ℚ)) "k" 10 none 0 0).2.2 +
      (get_or_fetch
        (get_or_fetch ([] : List (String × Option Nat × ℚ)) "k" 10 none 0 0).2.1
        "k" 10 none 5 5).2.2 = 2 := by
  norm_num [get_or_fetch, cacheGet, cacheSet, cstoreSet, cstoreErase, cstoreLookup,
    List.find?]

/-- C6 (amended): for a fetcher whose result is not `None`, two calls
within `ttl` seconds invoke the fetcher at most once in total; when the
first call fetched, the second returns the cached value without
fetching. -/
theorem claim_C6 :
    ∀ (α : Type) (store : List (String × Option α × ℚ)) (key : String)
      (ttl : ℚ) (v : α) (fv2 : Option α) (tg1 tset1 tg2 tset2 : ℚ),
      tg1 ≤ tset1 → tg2 ≤ tg1 + ttl →
      (get_or_fetch store key ttl (some v) tg1 tset1).2.2 +
        (get_or_fetch (get_or_fetch store key ttl (some v) tg1 tset1).2.1
          key ttl fv2 tg2 tset2).2.2 ≤ 1 ∧
      ((get_or_fetch store key ttl (some v) tg1 tset1).2.2 = 1 →
        (get_or_fetch (get_or_fetch store key ttl (some v) tg1 tset1).2.1
            key ttl fv2 tg2 tset2).1 = some v ∧
          (get_or_fetch (get_or_fetch store key ttl (some v) tg1 tset1).2.1
            key ttl fv2 tg2 tset2).2.2 = 0) := by
  intro α store key ttl v fv2 tg1 tset1 tg2 tset2 h1 h2
  have hexp : ¬ (tset1 + ttl < tg2) := by
    intro hc
    have : tg1 + ttl ≤ tset1 + ttl := by linarith
    linarith
  rcases hget : cacheGet store key tg1 with ⟨v1, store1⟩
  cases v1 with
  | some w =>
    have hfirst : get_or_fetch store key ttl (some v) tg1 tset1 = (some w, store1, 0) := by
      unfold get_or_fetch; rw [hget]
    rw [hfirst]
    dsimp only
    refine ⟨?_, ?_⟩
    · have := get_or_fetch_count_le_one store1 key ttl fv2 tg2 tset2
      omega
    · intro hc; exact absurd hc (by simp)
  | none =>
    have hfirst : get_or_fetch store key ttl (some v) tg1 tset1 =
        (some v, cacheSet store1 key (some v) ttl tset1, 1) := by
      unfold get_or_fetch; rw [hget]
    rw [hfirst]
    have hsecond : get_or_fetch (cacheSet store1 key (some v) ttl tset1)
        key ttl fv2 tg2 tset2 = (some v, cacheSet store1 key (some v) ttl tset1, 0) := by
      unfold get_or_fetch cacheGet cacheSet cstoreSet cstoreLookup
      simp only [List.find?, beq_self_eq_true, Option.map_some']
      rw [if_neg hexp]
    rw [hsecond]
    dsimp only
    exact ⟨by omega, fun _ => ⟨rfl, rfl⟩⟩

/-- Witness for the amended C6: empty store, value 42, ttl 10, calls at
times 0 and 5. -/
theorem claim_C6_witness :
    ((0 : ℚ) ≤ 0 ∧ (5 : ℚ) ≤ 0 + 10) ∧
    ((get_or_fetch ([] : List (String × Option Nat × ℚ)) "k" 10 (some 42) 0 0).2.2 +
        (get_or_fetch (get_or_fetch ([] : List (String × Option Nat × ℚ)) "k" 10
            (some 42) 0 0).2.1 "k" 10 none 5 5).2.2 ≤ 1 ∧
      ((get_or_fetch ([] : List (String × Option Nat × ℚ)) "k" 10 (some 42) 0 0).2.2 = 1 →
        (get_or_fetch (get_or_fetch ([] : List (String × Option Nat × ℚ)) "k" 10
            (some 42) 0 0).2.1 "k" 10 none 5 5).1 = some 42 ∧
          (get_or_fetch (get_or_fetch ([] : List (String × Option Nat × ℚ)) "k" 10
            (some 42) 0 0).2.1 "k" 10 none 5 5).2.2 = 0)) := by
  refine ⟨⟨le_refl 0, by norm_num⟩,
    claim_C6 Nat [] "k" 10 42 none 0 0 5 5 (le_refl 0) (by norm_num)⟩

/-! ### `data/source_zhitu.py`: retry policy of `_request` -/

inductive TransportKind where
  | timeout | connectErr | readErr | statusErr
deriving DecidableEq, Repr

inductive ReqError where
  | transport (k : TransportKind)
  | business (msg : String)
deriving DecidableEq, Repr

/-- `_RETRYABLE = (httpx.TimeoutException, httpx.ConnectError,
httpx.ReadError)` as tenacity's `retry_if_exception_type(_RETRYABLE)`
predicate; an HTTP status error or the business `RuntimeError` is not
retryable. -/
def retryable : ReqError → Bool
  | .transport .timeout => true
  | .transport .connectErr => true
  | .transport .readErr => true
  | _ => false

/-- The JSON envelope of an upstream response (`code` / `msg`). -/
structure Envelope where
  code : Option Int
  msg : Option String
deriving DecidableEq, Repr

/-- `payload.get("code") not in (None, 0, 200)`. -/
def isBusinessCode (c : Option Int) : Bool :=
  !(c == none || c == some 0 || c == some 200)

/-- The business-error branch of `_request`: a non-success code in a
successful response raises the business error with the provider's
message (`payload.get("msg", "未知错误")`). -/
def businessErrorOf (env : Envelope) : Option ReqError :=
  if isBusinessCode env.code then some (.business (env.msg.getD "未知错误")) else none

/-- Tenacity's loop under `stop_after_attempt(3)` and `reraise=True`:
`attempts k` is the outcome of attempt k+1, `rem` the number of further
attempts allowed.  Returns the final outcome and the attempts made. -/
def retryLoop {α : Type} (attempts : Nat → Except ReqError α) (idx : Nat) :
    Nat → Except ReqError α × Nat
  | 0 => (attempts idx, idx + 1)
  | rem + 1 =>
    match attempts idx with
    | .ok v => (.ok v, idx + 1)
    | .error e =>
      if retryable e then retryLoop attempts (idx + 1) rem else (.error e, idx + 1)

/-- The decorated `_request`: `stop_after_attempt(3)`. -/
def zhituRequest {α : Type} (attempts : Nat → Except ReqError α) :
    Except ReqError α × Nat :=
  retryLoop attempts 0 2

theorem retryLoop_count_le {α : Type} (attempts : Nat → Except ReqError α) :
    ∀ (rem idx : Nat), (retryLoop attempts idx rem).2 ≤ idx + rem + 1 := by
  intro rem
  induction rem with
  | zero => intro idx; simp [retryLoop]
  | succ rem ih =>
    intro idx
    unfold retryLoop
    cases attempts idx with
    | ok v => dsimp only; omega
    | error e =>
      dsimp only
      by_cases hr : retryable e
      · rw [if_pos hr]
        have := ih (idx + 1)
        omega
      · rw [if_neg hr]; dsimp only; omega

theorem retryLoop_stops_on_nonretryable {α : Type} (attempts : Nat → Except ReqError α)
    (rem idx : Nat) (e : ReqError) (h : attempts idx = .error e)
    (hnr : retryable e = false) :
    retryLoop attempts idx rem = (.error e, idx + 1) := by
  cases rem with
  | zero => unfold retryLoop; rw [h]
  | succ rem => unfold retryLoop; rw [h]; simp [hnr]

theorem retryLoop_retries_only_retryable {α : Type} (attempts : Nat → Except ReqError α) :
    ∀ (rem idx k : Nat), idx ≤ k → k + 1 < (retryLoop attempts idx rem).2 →
      ∃ e, attempts k = .error e ∧ retryable e = true := by
  intro rem
  induction rem with
  | zero =>
    intro idx k hik hk
    simp [retryLoop] at hk
    omega
  | succ rem ih =>
    intro idx k hik hk
    unfold retryLoop at hk
    cases ha : attempts idx with
    | ok v => rw [ha] at hk; simp at hk; omega
    | error e =>
      rw [ha] at hk
      dsimp only at hk
      by_cases hr : retryable e
      · rw [if_pos hr] at hk
        rcases Nat.eq_or_lt_of_le hik with hik | hik
        · exact ⟨e, hik ▸ ha, hr⟩
        · exact ih (idx + 1) k hik hk
      · rw [if_neg hr] at hk
        dsimp only at hk
        omega

/-- C7: the resilient request makes at most 3 attempts; a first-attempt
business error is propagated immediately without retry (1 attempt); a
retry ever happens only after a retryable timeout/connect/read
transport error; three consecutive retryable transport failures
re-raise the last error after exactly 3 attempts; and the envelope's
business error is never classified retryable. -/
theorem claim_C7 :
    (∀ (α : Type) (attempts : Nat → Except ReqError α),
        (zhituRequest attempts).2 ≤ 3) ∧
    (∀ (α : Type) (attempts : Nat → Except ReqError α) (msg : String),
        attempts 0 = .error (.business msg) →
        zhituRequest attempts = (.error (.business msg), 1)) ∧
    (∀ (α : Type) (attempts : Nat → Except ReqError α) (k : Nat),
        k + 1 < (zhituRequest attempts).2 →
        ∃ e, attempts k = .error e ∧ retryable e = true) ∧
    (∀ (α : Type) (attempts : Nat → Except ReqError α) (e0 e1 e2 : ReqError),
        attempts 0 = .error e0 → retryable e0 = true →
        attempts 1 = .error e1 → retryable e1 = true →
        attempts 2 = .error e2 →
        zhituRequest attempts = (.error e2, 3)) ∧
    (∀ (env : Envelope) (e : ReqError), businessErrorOf env = some e →
        retryable e = false) := by
  refine ⟨?_, ?_, ?_, ?_, ?_⟩
  · intro α attempts
    have := retryLoop_count_le attempts 2 0
    simpa [zhituRequest] using this
  · intro α attempts msg h
    exact retryLoop_stops_on_nonretryable attempts 2 0 _ h rfl
  · intro α attempts k hk
    exact retryLoop_retries_only_retryable attempts 2 0 k (Nat.zero_le k) hk
  · intro α attempts e0 e1 e2 h0 hr0 h1 hr1 h2
    unfold zhituRequest retryLoop
    rw [h0]
    dsimp only
    rw [if_pos hr0]
    unfold retryLoop
    rw [h1]
    dsimp only
    rw [if_pos hr1]
    unfold retryLoop
    rw [h2]
  · intro env e h
    unfold businessErrorOf at h
    split_ifs at h
    injection h with h; subst h; rfl

/-- Concrete attempt schedules for C7's witness. -/
def attemptsBiz : Nat → Except ReqError Nat := fun _ => .error (.business "限流")

def attemptsT : Nat → Except ReqError Nat := fun _ => .error (.transport .timeout)

/-- Witness for C7: a business failure stops after one attempt, three
timeout failures stop after three. -/
theorem claim_C7_witness :
    (zhituRequest attemptsBiz).2 ≤ 3 ∧
    (attemptsBiz 0 = .error (.business "限流") ∧
      zhituRequest attemptsBiz = (.error (.business "限流"), 1)) ∧
    (attemptsT 0 = .error (.transport .timeout) ∧
      retryable (.transport .timeout) = true ∧
      zhituRequest attemptsT = (.error (.transport .timeout), 3)) ∧
    (businessErrorOf ⟨some 500, some "x"⟩ = some (.business "x") ∧
      retryable (.business "x") = false) := by
  refine ⟨claim_C7.1 Nat attemptsBiz,
    ⟨rfl, claim_C7.2.1 Nat attemptsBiz "限流" rfl⟩,
    ⟨rfl, rfl, claim_C7.2.2.2.1 Nat attemptsT _ _ _ rfl rfl rfl rfl rfl⟩,
    ⟨rfl, claim_C7.2.2.2.2 ⟨some 500, some "x"⟩ _ rfl⟩⟩

/-! ### C8: the futures settlement day -/

/-- Walking back from day `dday` of a month reaches the latest trading
day ≥ `j` of the same month, when day `j` of the month is trading. -/
theorem trading_day_or_prev_spec (cal : CnCalendar) (y m : Nat) :
    ∀ (fuel dday j : Nat), 1 ≤ j → j ≤ dday →
      is_trading_day cal ⟨y, m, j⟩ = true →
      dday - j < fuel →
      ∃ r, trading_day_or_prev cal fuel ⟨y, m, dday⟩ = some r ∧
        is_trading_day cal r = true ∧ r.year = y ∧ r.month = m ∧
        j ≤ r.day ∧ r.day ≤ dday := by
  intro fuel
  induction fuel with
  | zero => intro dday j _ _ _ hf; omega
  | succ fuel ih =>
    intro dday j h1 hj htrad hf
    unfold trading_day_or_prev
    by_cases ht : is_trading_day cal ⟨y, m, dday⟩ = true
    · rw [if_pos ht]
      exact ⟨_, rfl, ht, rfl, rfl, hj, le_refl _⟩
    · rw [if_neg ht]
      have hne : dday ≠ j := fun he => ht (he ▸ htrad)
      have h2 : 1 < dday := by omega
      have hpred : (Date.mk y m dday).predDay = ⟨y, m, dday - 1⟩ := by
        unfold Date.predDay
        rw [if_pos h2]
      rw [hpred]
      obtain ⟨r, hr, hrt, hry, hrm, hrj, hrd⟩ :=
        ih (dday - 1) j h1 (by omega) htrad (by omega)
      exact ⟨r, hr, hrt, hry, hrm, hrj, by omega⟩

/-- The 3rd Friday always exists and falls on day 15–21 of the month. -/
theorem third_friday_exists (y m : Nat) :
    ∃ f3, nth_weekday_of_month y m 4 3 = some f3 ∧ f3.year = y ∧ f3.month = m ∧
      15 ≤ f3.day ∧ f3.day ≤ 21 := by
  unfold nth_weekday_of_month
  rw [if_neg (by omega)]
  dsimp only
  set fw := (Date.mk y m 1).weekday with hfw
  have hdiff : (4 + 7 - fw % 7) % 7 ≤ 6 := Nat.le_of_lt_succ (Nat.mod_lt _ (by omega))
  have hdim : 28 ≤ daysInMonth y m := by
    unfold daysInMonth
    split_ifs <;> omega
  rw [if_pos (by omega)]
  refine ⟨_, rfl, rfl, rfl, ?_, ?_⟩ <;> dsimp only <;> omega

/-- C8: whenever some day in the first 15 days of month (y, m) is a
trading day (true of every month of the real trading calendar) and the
fuel covers the walk, `futures_settlement_day` returns a trading day
that lies within the month — the 3rd Friday rolled backward never
leaves the month. -/
theorem claim_C8 :
    ∀ (cal : CnCalendar) (y m fuel j : Nat),
      1 ≤ j → j ≤ 15 → is_trading_day cal ⟨y, m, j⟩ = true → 21 ≤ fuel →
      ((futures_settlement_day cal fuel y m).map fun r =>
          (is_trading_day cal r, r.year, r.month,
            decide (1 ≤ r.day ∧ r.day ≤ daysInMonth y m))) =
        some (true, y, m, true) := by
  intro cal y m fuel j h1 h15 htrad hfuel
  obtain ⟨f3, hf3, hy3, hm3, hlo, hhi⟩ := third_friday_exists y m
  obtain ⟨fy, fm, fd⟩ := f3
  dsimp only at hy3 hm3 hlo hhi
  subst hy3
  subst hm3
  have hdim : 28 ≤ daysInMonth fy fm := by
    unfold daysInMonth
    split_ifs <;> omega
  obtain ⟨r, hr, hrt, hry, hrm, hrj, hrd⟩ :=
    trading_day_or_prev_spec cal fy fm fuel fd j h1 (by omega) htrad (by omega)
  unfold futures_settlement_day
  rw [hf3]
  dsimp only
  rw [hr]
  simp only [Option.map_some', hrt, hry, hrm]
  have hdr : (1 ≤ r.day ∧ r.day ≤ daysInMonth fy fm) := ⟨by omega, by omega⟩
  rw [decide_eq_true hdr]

/-- Witness for C8 at May 2026 with the all-workday oracle: May 15 is a
trading Friday. -/
theorem claim_C8_witness :
    (1 ≤ 15 ∧ 15 ≤ 15 ∧ is_trading_day allWorkCal ⟨2026, 5, 15⟩ = true ∧ 21 ≤ 21) ∧
    ((futures_settlement_day allWorkCal 21 2026 5).map fun r =>
        (is_trading_day allWorkCal r, r.year, r.month,
          decide (1 ≤ r.day ∧ r.day ≤ daysInMonth 2026 5))) =
      some (true, 2026, 5, true) := by
  exact ⟨⟨by decide, by decide, by decide, by decide⟩,
    claim_C8 allWorkCal 2026 5 21 15 (by decide) (by decide) (by decide) (by decide)⟩

/-! ### `data/rate_limiter.py` -/

/-- One `acquire()` call's monotonic-clock reads: `t1` on entry
(`now`), `t2` after the possible sleep, `t3` at the final append.  The
asyncio lock is held across the whole body — including the sleep — so
calls are fully serialized and the reads of successive calls are
monotone. -/
structure AcqCall where
  t1 : ℚ
  t2 : ℚ
  t3 : ℚ
deriving DecidableEq, Repr

/-- The body of `RateLimiter.acquire()` acting on the timestamp deque:
evict stamps at or before the cutoff, sleep and re-evict when the
window is full, then append the fresh clock read. -/
def rlStep (maxR : Nat) (w : ℚ) (ts : List ℚ) (c : AcqCall) : List ℚ :=
  let ts1 := ts.dropWhile fun x => decide (x ≤ c.t1 - w)
  if maxR ≤ ts1.length then
    (ts1.dropWhile fun x => decide (x ≤ c.t2 - w)) ++ [c.t3]
  else ts1 ++ [c.t3]

/-- Well-formedness of a serialized trace starting from deque `ts` and
previous clock value `last`: reads are monotone across and within
calls, and when the sleep branch is taken, `asyncio.sleep(wait_time)`
with `wait_time = ts1[0] − (t1 − w)` guarantees `t2 ≥ ts1[0] + w`. -/
def rlValidB (maxR : Nat) (w : ℚ) : List ℚ → ℚ → List AcqCall → Bool
  | _, _, [] => true
  | ts, last, c :: rest =>
    decide (last ≤ c.t1) && decide (c.t1 ≤ c.t2) && decide (c.t2 ≤ c.t3) &&
      (!(decide (maxR ≤ (ts.dropWhile fun x => decide (x ≤ c.t1 - w)).length)) ||
        decide ((ts.dropWhile fun x => decide (x ≤ c.t1 - w)).headD 0 + w ≤ c.t2)) &&
      rlValidB maxR w (rlStep maxR w ts c) c.t3 rest

/-- Membership of a completion stamp in the rolling window `(a, a+w]`. -/
def inWin (w a x : ℚ) : Bool := decide (a < x) && decide (x ≤ a + w)

/-- On a sorted list, the deque's evict-loop (`popleft` while the head
is at or before the cutoff) is exactly a filter. -/
theorem dropWhile_le_eq_filter (c : ℚ) :
    ∀ (l : List ℚ), l.Pairwise (· ≤ ·) →
      (l.dropWhile fun x => decide (x ≤ c)) = l.filter fun x => decide (c < x) := by
  intro l
  induction l with
  | nil => intro _; rfl
  | cons a l ih =>
    intro hp
    rw [List.pairwise_cons] at hp
    by_cases ha : a ≤ c
    · rw [List.dropWhile_cons, List.filter_cons]
      rw [decide_eq_true ha, decide_eq_false (not_lt.mpr ha)]
      simpa using ih hp.2
    · have hca : c < a := not_le.mp ha
      rw [List.dropWhile_cons, List.filter_cons]
      rw [decide_eq_false ha, decide_eq_true hca]
      simp only [Bool.false_eq_true, if_false, if_true]
      rw [List.filter_eq_self.mpr]
      intro b hb
      exact decide_eq_true (lt_of_lt_of_le hca (hp.1 b hb))

/-- The invariant carried along a rate-limiter trace: the deque equals
the completions newer than the last cutoff `θ`, completions are sorted
and bounded by the last clock value, the deque never exceeds
`max_requests`, and the rolling-window bound holds of all completions
so far. -/
structure RLInv (maxR : Nat) (w θ last : ℚ) (past ts : List ℚ) : Prop where
  heq : ts = past.filter fun x => decide (θ < x)
  hsorted : past.Pairwise (· ≤ ·)
  hub : ∀ x ∈ past, x ≤ last
  hlen : ts.length ≤ maxR
  hθ : θ + w ≤ last
  hH : ∀ a, (past.countP (inWin w a)) ≤ maxR

theorem length_dropWhile_le' (p : ℚ → Bool) :
    ∀ (l : List ℚ), (l.dropWhile p).length ≤ l.length := by
  intro l
  induction l with
  | nil => simp
  | cons a l ih =>
    rw [List.dropWhile_cons]
    split_ifs
    · exact Nat.le_trans ih (Nat.le_succ _)
    · exact le_refl _

/-- One `acquire()` preserves the limiter invariant, for some new
cutoff `θ'`. -/
theorem rlStep_inv (maxR : Nat) (w θ last : ℚ) (past ts : List ℚ) (c : AcqCall)
    (hmax : 1 ≤ maxR) (hw : 0 < w)
    (inv : RLInv maxR w θ last past ts)
    (ht1 : last ≤ c.t1) (ht12 : c.t1 ≤ c.t2) (ht23 : c.t2 ≤ c.t3)
    (hsleep : maxR ≤ (ts.dropWhile fun x => decide (x ≤ c.t1 - w)).length →
      (ts.dropWhile fun x => decide (x ≤ c.t1 - w)).headD 0 + w ≤ c.t2) :
    ∃ θ', RLInv maxR w θ' c.t3 (past ++ [c.t3]) (rlStep maxR w ts c) := by
  have hdrop : ∀ cut : ℚ, θ ≤ cut →
      (ts.dropWhile fun x => decide (x ≤ cut)) =
        past.filter fun x => decide (cut < x) := by
    intro cut hcut
    rw [inv.heq, dropWhile_le_eq_filter cut _ (inv.hsorted.filter _), List.filter_filter]
    apply List.filter_congr
    intro x hx
    by_cases h : cut < x
    · simp [h, lt_of_le_of_lt hcut h]
    · simp [h]
  have hmain : ∀ θ' : ℚ, θ' + w ≤ c.t3 → θ' < c.t3 →
      rlStep maxR w ts c = (past.filter fun x => decide (θ' < x)) ++ [c.t3] →
      (rlStep maxR w ts c).length ≤ maxR →
      RLInv maxR w θ' c.t3 (past ++ [c.t3]) (rlStep maxR w ts c) := by
    intro θ' hθ'3 hθ'lt hstate hlen'
    refine ⟨?_, ?_, ?_, hlen', hθ'3, ?_⟩
    · rw [hstate, List.filter_append]
      congr 1
      simp [decide_eq_true hθ'lt]
    · rw [List.pairwise_append]
      refine ⟨inv.hsorted, List.pairwise_singleton _ _, ?_⟩
      intro x hx b hb
      rw [List.mem_singleton] at hb
      subst hb
      have := inv.hub x hx
      linarith
    · intro x hx
      rw [List.mem_append] at hx
      rcases hx with hx | hx
      · have := inv.hub x hx; linarith
      · rw [List.mem_singleton] at hx; subst hx; exact le_refl _
    · intro a
      rw [List.countP_append]
      by_cases hwin : inWin w a c.t3 = true
      · have hwinp : a < c.t3 ∧ c.t3 ≤ a + w := by simpa [inWin] using hwin
        have hmono : past.countP (inWin w a) ≤ past.countP fun x => decide (θ' < x) := by
          apply List.countP_mono_left
          intro x hx hxw
          have hxwp : a < x ∧ x ≤ a + w := by simpa [inWin] using hxw
          exact decide_eq_true (by linarith [hwinp.2, hxwp.1])
        have hc1 : List.countP (inWin w a) [c.t3] = 1 := by
          simp [List.countP_cons, hwin]
        have hc2 : (past.countP fun x => decide (θ' < x)) + 1 ≤ maxR := by
          rw [List.countP_eq_length_filter]
          have h := hlen'
          rw [hstate, List.length_append] at h
          simpa using h
        omega
      · have hwinf : inWin w a c.t3 = false := Bool.eq_false_iff.mpr hwin
        have hc1 : List.countP (inWin w a) [c.t3] = 0 := by
          simp [List.countP_cons, hwinf]
        rw [hc1]
        simpa using inv.hH a
  have hθcut1 : θ ≤ c.t1 - w := by have := inv.hθ; linarith
  have hts1eq : (ts.dropWhile fun x => decide (x ≤ c.t1 - w)) =
      past.filter fun x => decide (c.t1 - w < x) := hdrop _ hθcut1
  by_cases hbr : maxR ≤ (ts.dropWhile fun x => decide (x ≤ c.t1 - w)).length
  · -- sleep branch
    have hhead := hsleep hbr
    have hstep : rlStep maxR w ts c =
        ((ts.dropWhile fun x => decide (x ≤ c.t1 - w)).dropWhile
          fun x => decide (x ≤ c.t2 - w)) ++ [c.t3] := by
      unfold rlStep
      rw [if_pos hbr]
    have hdrop2 : ((ts.dropWhile fun x => decide (x ≤ c.t1 - w)).dropWhile
        fun x => decide (x ≤ c.t2 - w)) = past.filter fun x => decide (c.t2 - w < x) := by
      rw [hts1eq, dropWhile_le_eq_filter _ _ (inv.hsorted.filter _), List.filter_filter]
      apply List.filter_congr
      intro x hx
      by_cases h : c.t2 - w < x
      · have h' : c.t1 - w < x := by linarith
        simp [h, h']
      · simp [h]
    have hlen2 : (rlStep maxR w ts c).length ≤ maxR := by
      rw [hstep]
      obtain ⟨h0, rest, hcons⟩ : ∃ h0 rest,
          (ts.dropWhile fun x => decide (x ≤ c.t1 - w)) = h0 :: rest := by
        cases hc : (ts.dropWhile fun x => decide (x ≤ c.t1 - w)) with
        | nil => rw [hc] at hbr; simp at hbr; omega
        | cons h0 rest => exact ⟨h0, rest, rfl⟩
      have hh0 : h0 ≤ c.t2 - w := by
        rw [hcons] at hhead
        simp only [List.headD_cons] at hhead
        linarith
      have hlents : rest.length + 1 ≤ maxR := by
        have h1 : (ts.dropWhile fun x => decide (x ≤ c.t1 - w)).length ≤ ts.length :=
          length_dropWhile_le' _ _
        rw [hcons] at h1
        simp only [List.length_cons] at h1
        have := inv.hlen
        omega
      rw [hcons, List.dropWhile_cons, decide_eq_true hh0]
      simp only [if_true, List.length_append, List.length_singleton]
      have := length_dropWhile_le' (fun x => decide (x ≤ c.t2 - w)) rest
      omega
    refine ⟨c.t2 - w, hmain _ (by linarith) (by linarith) ?_ hlen2⟩
    rw [hstep, hdrop2]
  · -- fast branch
    have hstep : rlStep maxR w ts c =
        (ts.dropWhile fun x => decide (x ≤ c.t1 - w)) ++ [c.t3] := by
      unfold rlStep
      rw [if_neg hbr]
    have hlen2 : (rlStep maxR w ts c).length ≤ maxR := by
      rw [hstep]
      simp only [List.length_append, List.length_singleton]
      omega
    refine ⟨c.t1 - w, hmain _ (by linarith) (by linarith) ?_ hlen2⟩
    rw [hstep, hts1eq]

/-- Along any valid trace the rolling-window bound holds of all
completions, past and future. -/
theorem rlRun_window (maxR : Nat) (w : ℚ) (hmax : 1 ≤ maxR) (hw : 0 < w) :
    ∀ (calls : List AcqCall) (past ts : List ℚ) (θ last : ℚ),
      RLInv maxR w θ last past ts →
      rlValidB maxR w ts last calls = true →
      ∀ a, ((past ++ calls.map AcqCall.t3).countP (inWin w a)) ≤ maxR := by
  intro calls
  induction calls with
  | nil =>
    intro past ts θ last inv _ a
    simpa using inv.hH a
  | cons c rest ih =>
    intro past ts θ last inv hval a
    unfold rlValidB at hval
    simp only [Bool.and_eq_true, Bool.or_eq_true, Bool.not_eq_true',
      decide_eq_true_eq, decide_eq_false_iff_not] at hval
    obtain ⟨⟨⟨⟨h1, h2⟩, h3⟩, h4⟩, h5⟩ := hval
    have hsleep : maxR ≤ (ts.dropWhile fun x => decide (x ≤ c.t1 - w)).length →
        (ts.dropWhile fun x => decide (x ≤ c.t1 - w)).headD 0 + w ≤ c.t2 :=
      fun hle => h4.resolve_left (not_not_intro hle)
    obtain ⟨θ', inv'⟩ := rlStep_inv maxR w θ last past ts c hmax hw inv h1 h2 h3 hsleep
    have := ih (past ++ [c.t3]) (rlStep maxR w ts c) θ' c.t3 inv' h5 a
    simpa [List.append_assoc] using this

/-- C5: under the serialized-monotonic-clock model of `acquire()`, a
`RateLimiter(max_requests, window_seconds)` never lets more than
`max_requests` acquisitions complete within any rolling window of
length `window_seconds`, for arbitrary arrival patterns; and every call
completes by appending exactly its own completion stamp — no request is
dropped or rejected. -/
theorem claim_C5 :
    ∀ (maxR : Nat) (w t0 : ℚ) (calls : List AcqCall),
      1 ≤ maxR → 0 < w →
      rlValidB maxR w [] t0 calls = true →
      (∀ a, (((calls.map AcqCall.t3).countP (inWin w a)) ≤ maxR)) ∧
      (∀ (ts : List ℚ) (c : AcqCall), (rlStep maxR w ts c).getLast? = some c.t3) := by
  intro maxR w t0 calls hmax hw hval
  constructor
  · intro a
    have hinv : RLInv maxR w (t0 - w) t0 [] [] := by
      refine ⟨rfl, .nil, by simp, by simp, by linarith, ?_⟩
      intro a
      simp
    have := rlRun_window maxR w hmax hw calls [] [] (t0 - w) t0 hinv hval a
    simpa using this
  · intro ts c
    unfold rlStep
    dsimp only
    split_ifs <;> exact List.getLast?_concat _

/-- Witness for C5: `max_requests = 1`, one-second window, two calls at
times 0 and 2. -/
theorem claim_C5_witness :
    (1 ≤ 1 ∧ (0 : ℚ) < 1 ∧
      rlValidB 1 1 [] 0 [⟨0, 0, 0⟩, ⟨2, 2, 2⟩] = true) ∧
    (([(⟨0, 0, 0⟩ : AcqCall), ⟨2, 2, 2⟩].map AcqCall.t3).countP (inWin 1 0) ≤ 1) ∧
    (rlStep 1 1 [] ⟨0, 0, 0⟩).getLast? = some ((0 : ℚ)) := by
  have hval : rlValidB 1 1 [] 0 [⟨0, 0, 0⟩, ⟨2, 2, 2⟩] = true := by
    norm_num [rlValidB, rlStep]
  have hmain := claim_C5 1 1 0 [⟨0, 0, 0⟩, ⟨2, 2, 2⟩] (le_refl 1) (by norm_num) hval
  exact ⟨⟨le_refl 1, by norm_num, hval⟩, hmain.1 0, hmain.2 [] ⟨0, 0, 0⟩⟩

end TideWatcher
